import Mathlib

/-!
Verification of the ConsultAI deliberation engine against its
natural-language specification.  Python sources are shallowly embedded:
floats are modelled as rationals, exceptions as `Option`/`Except`, and
stateful loops as explicit recursion.  Python's stable `list.sort` is
modelled by `List.insertionSort` (any two stable sorts under the same total
preorder agree, and insertion sort reduces in the kernel).  String
primitives are re-implemented over `List Char` by structural recursion so
that concrete runs are checkable by `decide`.
-/

/-! ## Python string primitives -/

/-- Tests whether the first list is a prefix of the second (used for
substring search, modelling the Python `in` operator on strings). -/
def matchesAt : List Char → List Char → Bool
  | [], _ => true
  | _ :: _, [] => false
  | a :: as, b :: bs => a == b && matchesAt as bs

/-- Substring search over char lists: does the needle occur anywhere? -/
def findSub : List Char → List Char → Bool
  | needle, [] => matchesAt needle []
  | needle, c :: rest => matchesAt needle (c :: rest) || findSub needle rest

/-- Models Python `needle in haystack` for strings. -/
def pyIn (needle haystack : String) : Bool :=
  findSub needle.toList haystack.toList

/-- Models Python `s.lower()` (ASCII case folding, as in Lean's
`Char.toLower`; the sources only compare ASCII keywords). -/
def pyLower (s : String) : String :=
  String.mk (s.toList.map Char.toLower)

/-- Accumulating scanner behind `pyWords`: splits on whitespace runs. -/
def wordsGo : List Char → List Char → List (List Char)
  | acc, [] => if acc.isEmpty then [] else [acc.reverse]
  | acc, c :: rest =>
    if c.isWhitespace then
      if acc.isEmpty then wordsGo [] rest else acc.reverse :: wordsGo [] rest
    else wordsGo (c :: acc) rest

/-- Models Python `s.split()` (no separator): split on whitespace runs,
no empty fragments. -/
def pyWords (s : String) : List String :=
  (wordsGo [] s.toList).map String.mk

/-- Models Python `s.lower().split()`. -/
def pyLowerWords (s : String) : List String :=
  pyWords (pyLower s)

/-- Fuel-driven worker for `pySplit`; the fuel is an upper bound on the
remaining haystack length, so it never runs out. -/
def splitFuel (sep : List Char) : ℕ → List Char → List (List Char)
  | _, [] => [[]]
  | 0, cs => [cs]
  | fuel + 1, c :: rest =>
    if matchesAt sep (c :: rest) then
      [] :: splitFuel sep fuel ((c :: rest).drop sep.length)
    else
      match splitFuel sep fuel rest with
      | [] => [[c]]
      | frag :: frags => (c :: frag) :: frags

/-- Models Python `s.split(sep)` for a non-empty separator: non-overlapping
occurrences, left to right. -/
def pySplit (s sep : String) : List String :=
  if sep.toList.isEmpty then [s]
  else (splitFuel sep.toList s.toList.length s.toList).map String.mk

/-- Models Python `s.strip()`: drop leading and trailing whitespace. -/
def pyStrip (s : String) : String :=
  String.mk (((s.toList.dropWhile Char.isWhitespace).reverse.dropWhile
    Char.isWhitespace).reverse)

/-- Fuel-driven worker for `pyReplace`. -/
def replaceFuel (pattern target : List Char) : ℕ → List Char → List Char
  | _, [] => []
  | 0, cs => cs
  | fuel + 1, c :: rest =>
    if matchesAt pattern (c :: rest) then
      target ++ replaceFuel pattern target fuel ((c :: rest).drop pattern.length)
    else
      c :: replaceFuel pattern target fuel rest

/-- Models Python `s.replace(pattern, target)` for a non-empty pattern. -/
def pyReplace (s pattern target : String) : String :=
  String.mk (replaceFuel pattern.toList target.toList s.toList.length s.toList)

/-- Models Python `min(a, b)` on floats (kernel-friendly, unlike the
lattice `min` of `ℚ`). -/
def pyMin (a b : ℚ) : ℚ := if a ≤ b then a else b

theorem pyMin_le_right (a b : ℚ) : pyMin a b ≤ b := by
  unfold pyMin
  split
  · assumption
  · exact le_rfl

/-- Models Python `max(a, b)` on floats. -/
def pyMax (a b : ℚ) : ℚ := if a ≤ b then b else a

/-! ## Agent memory (src/consultai/models/enhanced_agents.py) -/

/-- One entry of `EnhancedAgent.memories`: a dict with keys
`role`, `content`, `timestamp`, `importance`. -/
structure MemEntry where
  role : String
  content : String
  timestamp : ℚ
  importance : ℚ
deriving DecidableEq, Repr

/-- The fixed salience keyword list of `EnhancedAgent._calculate_importance`. -/
def salienceKeywords : List String :=
  ["important", "critical", "key", "essential", "crucial"]

/-- Translates `EnhancedAgent._calculate_importance`: length factor
`min(len(text)/1000, 1.0)`, plus `0.2` for each key term contained in the
lowercased text, finally capped at `1.0`. -/
def calcImportance (text : String) : ℚ :=
  let base : ℚ := pyMin ((text.length : ℚ) / 1000) 1
  let withTerms :=
    salienceKeywords.foldl
      (fun acc term => if pyIn term (pyLower text) then acc + 2/10 else acc) base
  pyMin withTerms 1

/-- Number of salience keywords that occur (as substrings) in the lowercased
text — the quantity `_calculate_importance` actually pays `0.2` for. -/
def keywordsPresentCount (text : String) : ℕ :=
  (salienceKeywords.filter (fun term => pyIn term (pyLower text))).length

/-- Importance as the claim words it ("0.2 for each occurrence of any word
from the fixed salience keyword set in the text"): `0.2` per word occurrence,
counted over the whitespace-split lowercased text. -/
def importanceOccSpec (text : String) : ℚ :=
  pyMin (pyMin ((text.length : ℚ) / 1000) 1
        + (2/10) * ((pyLowerWords text).countP (fun w => salienceKeywords.contains w) : ℚ)) 1

/-- Ordering used by `memories.sort(key=lambda x: (importance, timestamp),
reverse=True)`: a stable descending sort on the lexicographic key, so `a` may
precede `b` iff `key b ≤ key a`. -/
def keyDescOrd (a b : MemEntry) : Prop :=
  b.importance < a.importance ∨
    (b.importance = a.importance ∧ b.timestamp ≤ a.timestamp)

instance : DecidableRel keyDescOrd := fun a b => by
  unfold keyDescOrd; infer_instance

instance : IsTotal MemEntry keyDescOrd where
  total a b := by
    unfold keyDescOrd
    rcases lt_trichotomy a.importance b.importance with h | h | h
    · exact Or.inr (Or.inl h)
    · rcases le_total b.timestamp a.timestamp with ht | ht
      · exact Or.inl (Or.inr ⟨h.symm, ht⟩)
      · exact Or.inr (Or.inr ⟨h, ht⟩)
    · exact Or.inl (Or.inl h)

instance : IsTrans MemEntry keyDescOrd where
  trans a b c hab hbc := by
    unfold keyDescOrd at *
    rcases hab with h1 | ⟨h1, h1t⟩ <;> rcases hbc with h2 | ⟨h2, h2t⟩
    · exact Or.inl (h2.trans h1)
    · exact Or.inl (h2.trans_lt h1)
    · exact Or.inl (h2.trans_eq h1)
    · exact Or.inr ⟨h2.trans h1, h2t.trans h1t⟩

/-- Ordering used by `memories.sort(key=lambda x: x["timestamp"])`. -/
def tsAscOrd (a b : MemEntry) : Prop := a.timestamp ≤ b.timestamp

instance : DecidableRel tsAscOrd := fun a b => by
  unfold tsAscOrd; infer_instance

instance : IsTotal MemEntry tsAscOrd where
  total a b := le_total a.timestamp b.timestamp

instance : IsTrans MemEntry tsAscOrd where
  trans _ _ _ hab hbc := le_trans hab hbc

/-- Translates `EnhancedAgent._update_memory`: append the prompt and the
response as two entries (timestamps supplied by the caller's clock), then, if
the length exceeds `memory_size * 2`, sort by (importance desc, timestamp
desc), keep the first `memory_size * 2`, and re-sort by timestamp ascending. -/
def updateMemory (memorySize : ℕ) (mems : List MemEntry)
    (prompt response : String) (t1 t2 : ℚ) : List MemEntry :=
  let appended := mems ++
    [⟨"user", prompt, t1, calcImportance prompt⟩,
     ⟨"assistant", response, t2, calcImportance response⟩]
  if memorySize * 2 < appended.length then
    ((appended.insertionSort keyDescOrd).take (memorySize * 2)).insertionSort tsAscOrd
  else appended

/-- Translates `EnhancedAgent._format_conversation_history`: the last five
memories rendered as "role: content" blocks. -/
def fmtConvHistory (mems : List MemEntry) : String :=
  if mems = [] then "No previous conversation."
  else (mems.drop (mems.length - 5)).foldl
    (fun acc m => acc ++ m.role ++ ": " ++ m.content ++ "\n\n") ""

/-- Relevance scores of `EnhancedAgent._format_relevant_memories`: for each
memory, `|prompt_keywords ∩ memory_keywords| / |prompt_keywords|`.  The
division is Python float division: when the prompt has no keywords it raises
`ZeroDivisionError`, modelled as `none`.  (The source filters by the `0.3`
threshold inside the same loop; filtering is applied to the scored list
afterwards in `fmtRelevantMemories`, which is equivalent.) -/
def scoreMemories (promptKeywords : List String) : List MemEntry → Option (List (MemEntry × ℚ))
  | [] => some []
  | m :: rest =>
    if promptKeywords.length = 0 then none
    else
      let memKeywords := (pyLowerWords m.content).dedup
      let interCount := (promptKeywords.filter (fun w => memKeywords.contains w)).length
      match scoreMemories promptKeywords rest with
      | none => none
      | some tail => some ((m, (interCount : ℚ) / (promptKeywords.length : ℚ)) :: tail)

/-- Ordering of `relevant_memories.sort(key=lambda x: x[1], reverse=True)`. -/
def relDescOrd (a b : MemEntry × ℚ) : Prop := b.2 ≤ a.2

instance : DecidableRel relDescOrd := fun a b => by
  unfold relDescOrd; infer_instance

instance : IsTotal (MemEntry × ℚ) relDescOrd where
  total a b := le_total b.2 a.2

instance : IsTrans (MemEntry × ℚ) relDescOrd where
  trans _ _ _ hab hbc := le_trans hbc hab

/-- Translates `EnhancedAgent._format_relevant_memories`: keyword-overlap
relevance, `0.3` threshold, stable sort by relevance descending, top three
formatted as bullet lines. -/
def fmtRelevantMemories (mems : List MemEntry) (prompt : String) : Option String :=
  if mems = [] then some "No relevant memories."
  else do
    let promptKeywords := (pyLowerWords prompt).dedup
    let scored ← scoreMemories promptKeywords mems
    let relevant := scored.filter (fun p => decide ((3/10 : ℚ) < p.2))
    let ranked := relevant.insertionSort relDescOrd
    let text := (ranked.take 3).foldl (fun acc p => acc ++ "- " ++ p.1.content ++ "\n") ""
    pure (if text = "" then "No relevant memories found." else text)

/-- Translates `EnhancedAgent._create_enhanced_prompt` (the context block is
taken pre-formatted).  Propagates the `ZeroDivisionError` of the relevance
scoring. -/
def createEnhancedPrompt (role : String) (mems : List MemEntry)
    (prompt : String) (contextStr : String) : Option String := do
  let history := fmtConvHistory mems
  let relMems ← fmtRelevantMemories mems prompt
  pure ("Role: " ++ role ++ "\n\n" ++ contextStr ++ "\n\nPrevious Conversation:\n"
    ++ history ++ "\n\nRelevant Memories:\n" ++ relMems ++ "\n\nCurrent Task:\n"
    ++ prompt ++ "\n\nPlease provide a response that:\n1. Addresses the current task"
    ++ "\n2. References relevant memories if applicable"
    ++ "\n3. Maintains consistency with previous conversation"
    ++ "\n4. Demonstrates innovative thinking")

/-- Translates `EnhancedAgent.generate_response`: build the enhanced prompt
(which may raise), call the model (abstracted as `callLLM`), then update
memory with the prompt/response pair.  Returns the response content together
with the post-update memory. -/
def agentGenerateResponse (role : String) (memorySize : ℕ) (mems : List MemEntry)
    (prompt : String) (contextStr : String) (callLLM : String → String)
    (t1 t2 : ℚ) : Option (String × List MemEntry) := do
  let enhanced ← createEnhancedPrompt role mems prompt contextStr
  let respContent := callLLM enhanced
  pure (respContent, updateMemory memorySize mems prompt respContent t1 t2)

/-! ## Theorems for importance scoring (C8) -/

/-- C8 counterexample: on the text "important important" (19 characters, the
keyword "important" occurring twice), the code assigns
`19/1000 + 0.2 = 0.219`, while the claim's per-occurrence formula gives
`19/1000 + 0.4 = 0.419`. -/
theorem C8_counterexample :
    calcImportance "important important" = 219/1000 ∧
    importanceOccSpec "important important" = 419/1000 ∧
    (219/1000 : ℚ) ≠ 419/1000 := by
  have h1 : pyIn "important" (pyLower "important important") = true := by decide
  have h2 : pyIn "critical" (pyLower "important important") = false := by decide
  have h3 : pyIn "key" (pyLower "important important") = false := by decide
  have h4 : pyIn "essential" (pyLower "important important") = false := by decide
  have h5 : pyIn "crucial" (pyLower "important important") = false := by decide
  have hlen : "important important".length = 19 := by decide
  have hocc : (pyLowerWords "important important").countP
      (fun w => salienceKeywords.contains w) = 2 := by decide
  refine ⟨?_, ?_, by norm_num⟩
  · unfold calcImportance salienceKeywords
    simp only [List.foldl, h1, h2, h3, h4, h5, if_true, if_false, hlen]
    norm_num [pyMin]
  · unfold importanceOccSpec
    rw [hocc, hlen]
    norm_num [pyMin]

/-- C8 (amended): for every text, the importance score equals
`min(1.0, length/1000)` plus `0.2` for each distinct salience keyword that
occurs as a substring of the lowercased text (counted once per keyword, not
per occurrence), with the total capped at `1.0`. -/
theorem C8_importance_amended :
    ∀ text : String,
      calcImportance text
        = pyMin (pyMin ((text.length : ℚ) / 1000) 1 + (2/10) * (keywordsPresentCount text : ℚ)) 1
      ∧ calcImportance text ≤ 1 := by
  intro text
  refine ⟨?_, pyMin_le_right _ _⟩
  unfold calcImportance keywordsPresentCount salienceKeywords
  by_cases h1 : pyIn "important" (pyLower text) <;>
    by_cases h2 : pyIn "critical" (pyLower text) <;>
      by_cases h3 : pyIn "key" (pyLower text) <;>
        by_cases h4 : pyIn "essential" (pyLower text) <;>
          by_cases h5 : pyIn "crucial" (pyLower text) <;>
            simp only [List.foldl, List.filter, h1, h2, h3, h4, h5, if_true,
              if_false, List.length_cons, List.length_nil] <;>
            (congr 1; push_cast; ring)

/-! ## Theorems for the empty-prompt division by zero (C10) -/

/-- C10: for any agent holding at least one memory entry, a prompt with no
whitespace-separated words makes the relevance ratio divide by zero:
`_format_relevant_memories` raises (returns `none`), and so does
`generate_response`, instead of returning a response. -/
theorem C10_empty_prompt_div_by_zero :
    ∀ (role contextStr : String) (memorySize : ℕ) (mems : List MemEntry)
      (prompt : String) (callLLM : String → String) (t1 t2 : ℚ),
      mems ≠ [] → pyLowerWords prompt = [] →
      fmtRelevantMemories mems prompt = none ∧
      agentGenerateResponse role memorySize mems prompt contextStr callLLM t1 t2 = none := by
  intro role contextStr memorySize mems prompt callLLM t1 t2 hne hwords
  obtain ⟨m, ms, rfl⟩ : ∃ m ms, mems = m :: ms := by
    cases mems with
    | nil => exact absurd rfl hne
    | cons m ms => exact ⟨m, ms, rfl⟩
  have hfmt : fmtRelevantMemories (m :: ms) prompt = none := by
    simp [fmtRelevantMemories, scoreMemories, hwords]
  refine ⟨hfmt, ?_⟩
  simp [agentGenerateResponse, createEnhancedPrompt, hfmt]

/-- C10 witness: a concrete agent with one memory and a whitespace-only
prompt. -/
theorem C10_witness :
    fmtRelevantMemories [⟨"user", "hello", 0, 1/2⟩] " " = none ∧
    agentGenerateResponse "ethicist" 10 [⟨"user", "hello", 0, 1/2⟩] " " ""
      (fun _ => "ok") 0 0 = none :=
  C10_empty_prompt_div_by_zero "ethicist" "" 10 [⟨"user", "hello", 0, 1/2⟩] " "
    (fun _ => "ok") 0 0 (by decide) (by decide)

/-! ## Python float parsing (for the confidence heuristic) -/

/-- Value of a digit string. -/
def digitsVal (ds : List Char) : ℕ :=
  ds.foldl (fun acc c => acc * 10 + (c.toNat - 48)) 0

/-- Exponent digits: one or more digits consuming the whole rest. -/
def parseExpDigits (cs : List Char) : Option ℤ :=
  let ds := cs.takeWhile Char.isDigit
  let rest := cs.dropWhile Char.isDigit
  if ds.isEmpty ∨ ¬ rest.isEmpty then none else some (digitsVal ds : ℤ)

/-- Optionally signed exponent digits. -/
def parseSignedExp : List Char → Option ℤ
  | '+' :: rest => parseExpDigits rest
  | '-' :: rest => (parseExpDigits rest).map (fun z => -z)
  | rest => parseExpDigits rest

/-- Optional exponent marker at the end of a float literal. -/
def parseExpPart : List Char → Option ℤ
  | [] => some 0
  | 'e' :: rest => parseSignedExp rest
  | 'E' :: rest => parseSignedExp rest
  | _ => none

/-- Mantissa of a float literal: `digits`, `digits.digits`, `digits.` or
`.digits`; returns its value and the unconsumed rest. -/
def parseMantissa (cs : List Char) : Option (ℚ × List Char) :=
  let intDs := cs.takeWhile Char.isDigit
  let rest1 := cs.dropWhile Char.isDigit
  match rest1 with
  | '.' :: rest2 =>
    let fracDs := rest2.takeWhile Char.isDigit
    let rest3 := rest2.dropWhile Char.isDigit
    if intDs.isEmpty ∧ fracDs.isEmpty then none
    else some ((digitsVal intDs : ℚ) + (digitsVal fracDs : ℚ) / (10 ^ fracDs.length : ℚ), rest3)
  | _ => if intDs.isEmpty then none else some ((digitsVal intDs : ℚ), rest1)

/-- Sign, mantissa and exponent of a float literal. -/
def pyFloatCore (cs : List Char) : Option ℚ :=
  let signAndRest : ℚ × List Char :=
    match cs with
    | '+' :: rest => (1, rest)
    | '-' :: rest => (-1, rest)
    | rest => (1, rest)
  match parseMantissa signAndRest.2 with
  | none => none
  | some (m, rest) =>
    match parseExpPart rest with
    | none => none
    | some e => some (signAndRest.1 * m * (10 : ℚ) ^ e)

/-- Models Python `float(s)`: surrounding whitespace stripped, optional sign,
decimal mantissa, optional exponent; `none` models the raised `ValueError`.
(`inf`/`nan` and underscore digit separators are not modelled; the sources
never feed such literals.) -/
def pyFloat (s : String) : Option ℚ := pyFloatCore (pyStrip s).toList

/-! ## Confidence extraction (DeliberationManager._check_consensus,
src/consultai/models/deliberation.py lines 283-309) -/

/-- The `confidence_str` of `_check_consensus`:
`response.lower().split("confidence:")[1].split("\n")[0].strip()`. -/
def confStrOf (response : String) : String :=
  pyStrip (((pySplit (((pySplit (pyLower response) "confidence:").get? 1).getD "")
    "\n").get? 0).getD "")

/-- The inner `try` block parsing `confidence_str`: `a/b` ratio (a zero
denominator raises, hence `none`), else `NN%`, else a bare float halved to
out-of-ten when above `1`. -/
def parseConfStr (s : String) : Option ℚ :=
  if pyIn "/" s then
    match pyFloat (((pySplit s "/").get? 0).getD ""),
          pyFloat (((pySplit s "/").get? 1).getD "") with
    | some a, some b => if b = 0 then none else some (a / b)
    | _, _ => none
  else if pyIn "%" s then
    (pyFloat (pyReplace s "%" "")).map (fun x => x / 100)
  else
    (pyFloat s).map (fun x => if 1 < x then x / 10 else x)

/-- Translates the confidence update of `_check_consensus` for one response:
marker absent yields the `0.5` default, a parsed value is clamped to `[0,1]`,
and a parse failure yields the `0.7` "default medium confidence". -/
def extractConfidence (response : String) : ℚ :=
  if pyIn "confidence:" (pyLower response) then
    match parseConfStr (confStrOf response) with
    | some c => pyMin 1 (pyMax 0 c)
    | none => 7/10
  else 1/2

theorem pyMin_le_left (a b : ℚ) : pyMin a b ≤ a := by
  unfold pyMin
  split
  · exact le_rfl
  · next h => exact le_of_not_le h

theorem le_pyMax_left (a b : ℚ) : a ≤ pyMax a b := by
  unfold pyMax
  split
  · assumption
  · exact le_rfl

theorem pyMin_nonneg (a b : ℚ) (ha : 0 ≤ a) (hb : 0 ≤ b) : 0 ≤ pyMin a b := by
  unfold pyMin
  split
  · exact ha
  · exact hb

/-! ## Theorems for confidence extraction (C2) -/

/-- C2 counterexample: on "confidence: high" the marker is present but the
value does not parse, and the code stores `0.7`, not the claimed default
`0.5`. -/
theorem C2_counterexample :
    extractConfidence "confidence: high" = 7/10 ∧ (7/10 : ℚ) ≠ 1/2 := by
  constructor
  · have hin : pyIn "confidence:" (pyLower "confidence: high") = true := by decide
    have hcs : confStrOf "confidence: high" = "high" := by decide
    have hpc : parseConfStr "high" = none := by decide
    simp only [extractConfidence, hin, if_true, hcs, hpc]
  · norm_num

/-- C2 (amended): the extractor parses the text after `confidence:` as a
ratio `a/b`, a percentage `NN%`, or a bare number halved to out-of-ten when
above one, clamps parsed values to `[0,1]`, yields `0.5` when the marker is
absent, and yields `0.7` (not `0.5`) on a parse failure. -/
theorem C2_confidence_amended :
    (∀ r : String, pyIn "confidence:" (pyLower r) = false → extractConfidence r = 1/2)
    ∧ extractConfidence "confidence: 8/10" = 8/10
    ∧ extractConfidence "confidence: 90%" = 9/10
    ∧ extractConfidence "confidence: 3" = 3/10
    ∧ extractConfidence "confidence: 0.5" = 1/2
    ∧ extractConfidence "confidence: high" = 7/10
    ∧ (∀ r : String, 0 ≤ extractConfidence r ∧ extractConfidence r ≤ 1) := by
  refine ⟨?_, ?_, ?_, ?_, ?_, ?_, ?_⟩
  · intro r h
    simp [extractConfidence, h]
  · have hin : pyIn "confidence:" (pyLower "confidence: 8/10") = true := by decide
    have hcs : confStrOf "confidence: 8/10" = "8/10" := by decide
    have hpc : parseConfStr "8/10" = some (8/10) := by
      simp +decide [parseConfStr, pySplit, splitFuel, pyFloat, pyFloatCore,
        parseMantissa, parseExpPart, parseExpDigits, digitsVal, pyStrip]
    simp only [extractConfidence, hin, if_true, hcs, hpc]
    norm_num [pyMin, pyMax]
  · have hin : pyIn "confidence:" (pyLower "confidence: 90%") = true := by decide
    have hcs : confStrOf "confidence: 90%" = "90%" := by decide
    have hpc : parseConfStr "90%" = some (9/10) := by
      simp +decide [parseConfStr, pyReplace, replaceFuel, pyFloat, pyFloatCore,
        parseMantissa, parseExpPart, parseExpDigits, digitsVal, pyStrip]
      norm_num
    simp only [extractConfidence, hin, if_true, hcs, hpc]
    norm_num [pyMin, pyMax]
  · have hin : pyIn "confidence:" (pyLower "confidence: 3") = true := by decide
    have hcs : confStrOf "confidence: 3" = "3" := by decide
    have hpc : parseConfStr "3" = some (3/10) := by
      simp +decide [parseConfStr, pyFloat, pyFloatCore,
        parseMantissa, parseExpPart, parseExpDigits, digitsVal, pyStrip]
    simp only [extractConfidence, hin, if_true, hcs, hpc]
    norm_num [pyMin, pyMax]
  · have hin : pyIn "confidence:" (pyLower "confidence: 0.5") = true := by decide
    have hcs : confStrOf "confidence: 0.5" = "0.5" := by decide
    have hpc : parseConfStr "0.5" = some (1/2) := by
      simp +decide [parseConfStr, pyFloat, pyFloatCore,
        parseMantissa, parseExpPart, parseExpDigits, digitsVal, pyStrip]
      norm_num
    simp only [extractConfidence, hin, if_true, hcs, hpc]
    norm_num [pyMin, pyMax]
  · have hin : pyIn "confidence:" (pyLower "confidence: high") = true := by decide
    have hcs : confStrOf "confidence: high" = "high" := by decide
    have hpc : parseConfStr "high" = none := by decide
    simp only [extractConfidence, hin, if_true, hcs, hpc]
  · intro r
    unfold extractConfidence
    split
    · cases hp : parseConfStr (confStrOf r) with
      | none => norm_num
      | some c =>
        constructor
        · exact pyMin_nonneg _ _ (by norm_num) (le_trans le_rfl (le_pyMax_left 0 c))
        · exact pyMin_le_left 1 _
    · norm_num

/-- C2 witness: the marker-absent branch of the amended theorem at a concrete
response. -/
theorem C2_witness : extractConfidence "no marker here" = 1/2 :=
  C2_confidence_amended.1 "no marker here" (by decide)

/-! ## Request Client (src/consultai/utils/api_client.py) -/

/-- A successful backend reply: `response.choices[0].message.content`,
`response.usage.prompt_tokens`, `response.usage.completion_tokens`,
`response.model`. -/
structure Reply where
  content : String
  promptTokens : ℕ
  completionTokens : ℕ
  model : String
deriving DecidableEq, Repr

/-- The dict returned by `_process_response` / `_handle_error`. -/
structure Resp where
  content : String
  responseTime : ℚ
  inputTokens : ℕ
  outputTokens : ℕ
  totalTokens : ℕ
  inputCost : ℚ
  outputCost : ℚ
  totalCost : ℚ
  error : Option String
deriving DecidableEq, Repr

/-- Translates `APIClient._process_response` (metric accumulation aside):
token costs come from `self.token_config[response.model]`, whose dict
subscript raises `KeyError` (Python renders it as the quoted key) for a
model absent from the table. -/
def processResponse (tokenCfg : List (String × ℚ × ℚ)) (elapsed : ℚ)
    (r : Reply) : Except String Resp :=
  match List.lookup r.model tokenCfg with
  | none => .error ("'" ++ r.model ++ "'")
  | some (ic, oc) =>
    .ok ⟨r.content, elapsed, r.promptTokens, r.completionTokens,
      r.promptTokens + r.completionTokens,
      (r.promptTokens : ℚ) * ic, (r.completionTokens : ℚ) * oc,
      (r.promptTokens : ℚ) * ic + (r.completionTokens : ℚ) * oc, none⟩

/-- Translates `APIClient._handle_error`: a tagged failure Response with the
error marker as content. -/
def handleError (elapsed : ℚ) (err : String) : Resp :=
  ⟨"[Error: " ++ err ++ "]", elapsed, 0, 0, 0, 0, 0, 0, some err⟩

/-- One attempt of the retry loop in `generate_response_async`: the backend
call and, on success, `_process_response` — both inside the same `try`. -/
def attemptOutcome (tokenCfg : List (String × ℚ × ℚ)) (elapsed : ℚ)
    (backend : ℕ → Except String Reply) (i : ℕ) : Except String Resp :=
  match backend i with
  | .error e => .error e
  | .ok reply => processResponse tokenCfg elapsed reply

/-- Observable trace of one `generate_response_async` call: number of
underlying attempts, the backoff delays slept between consecutive attempts,
and the returned value (`none` models Python falling off the loop and
returning `None`, possible only for `max_retries = 0`). -/
structure RetryTrace where
  attempts : ℕ
  delays : List ℚ
  result : Option Resp
deriving DecidableEq, Repr

/-- The retry loop `for attempt in range(max_retries)` of
`generate_response_async`: on failure at the last attempt return
`_handle_error`, otherwise sleep `retry_delay * 2 ** attempt` and retry. -/
def retryGo (tokenCfg : List (String × ℚ × ℚ)) (elapsed retryDelay : ℚ)
    (backend : ℕ → Except String Reply) : ℕ → ℕ → RetryTrace
  | attempt, 0 => ⟨attempt, [], none⟩
  | attempt, remaining + 1 =>
    match attemptOutcome tokenCfg elapsed backend attempt with
    | .ok resp => ⟨attempt + 1, [], some resp⟩
    | .error e =>
      if remaining = 0 then ⟨attempt + 1, [], some (handleError elapsed e)⟩
      else
        ⟨(retryGo tokenCfg elapsed retryDelay backend (attempt + 1) remaining).attempts,
         retryDelay * 2 ^ attempt ::
           (retryGo tokenCfg elapsed retryDelay backend (attempt + 1) remaining).delays,
         (retryGo tokenCfg elapsed retryDelay backend (attempt + 1) remaining).result⟩

/-- Translates `APIClient.generate_response_async` (confirmation, whose
result the source ignores, omitted): mock mode short-circuits, otherwise the
retry loop runs from attempt 0. -/
def generateResponseAsync (mockMode : Bool) (prompt : String) (maxRetries : ℕ)
    (retryDelay elapsed : ℚ) (tokenCfg : List (String × ℚ × ℚ))
    (backend : ℕ → Except String Reply) : RetryTrace :=
  if mockMode then
    ⟨0, [],
     some ⟨"Mock response for: " ++ String.mk (prompt.toList.take 50) ++ "...",
       1/10, 10, 20, 30, 0, 0, 0, none⟩⟩
  else retryGo tokenCfg elapsed retryDelay backend 0 maxRetries

theorem retryGo_allFail (tokenCfg : List (String × ℚ × ℚ)) (elapsed retryDelay : ℚ)
    (backend : ℕ → Except String Reply) (errs : ℕ → String)
    (hall : ∀ i, attemptOutcome tokenCfg elapsed backend i = .error (errs i)) :
    ∀ remaining attempt, 1 ≤ remaining →
      retryGo tokenCfg elapsed retryDelay backend attempt remaining =
        ⟨attempt + remaining,
         (List.range (remaining - 1)).map (fun i => retryDelay * 2 ^ (attempt + i)),
         some (handleError elapsed (errs (attempt + remaining - 1)))⟩ := by
  intro remaining
  induction remaining with
  | zero => intro attempt h; omega
  | succ r ih =>
    intro attempt _
    rw [retryGo, hall attempt]
    by_cases hr : r = 0
    · subst hr
      simp
    · have hr1 : 1 ≤ r := Nat.one_le_iff_ne_zero.mpr hr
      simp only [if_neg hr]
      rw [ih (attempt + 1) hr1]
      obtain ⟨r', rfl⟩ : ∃ r', r = r' + 1 := ⟨r - 1, by omega⟩
      simp only [RetryTrace.mk.injEq]
      refine ⟨by omega, ?_,
        by rw [show attempt + 1 + (r' + 1) - 1 = attempt + (r' + 1 + 1) - 1 by omega]⟩
      rw [show r' + 1 + 1 - 1 = r' + 1 by omega, show r' + 1 - 1 = r' by omega,
        List.range_succ_eq_map, List.map_cons, List.map_map]
      refine congrArg₂ List.cons (by rw [Nat.add_zero]) ?_
      refine List.map_congr_left (fun i _ => ?_)
      simp only [Function.comp]
      rw [show attempt + 1 + i = attempt + Nat.succ i by omega]

theorem chain_le_backoff (d : ℚ) (hd : 0 ≤ d) (n : ℕ) :
    List.Chain' (· ≤ ·) ((List.range n).map (fun i => d * 2 ^ i)) := by
  rw [List.chain'_iff_pairwise, List.pairwise_map]
  refine List.pairwise_lt_range n |>.imp (fun {a b} hab => ?_)
  have h2 : (2 : ℚ) ^ a ≤ 2 ^ b := by
    apply pow_le_pow_right₀ (by norm_num) (le_of_lt hab)
  nlinarith

/-! ## Retry policy: the synchronous path and the theorems for C5 -/

/-- The retry loop `for attempt in range(max_retries)` of the synchronous
`generate_response` (api_client.py lines 286-302): same attempt structure as
the asynchronous loop, but between consecutive attempts it sleeps the
constant `retry_delay` (`time.sleep(self.api_config["retry_delay"])`), with
no exponential factor. -/
def syncRetryGo (tokenCfg : List (String × ℚ × ℚ)) (elapsed retryDelay : ℚ)
    (backend : ℕ → Except String Reply) : ℕ → ℕ → RetryTrace
  | attempt, 0 => ⟨attempt, [], none⟩
  | attempt, remaining + 1 =>
    match attemptOutcome tokenCfg elapsed backend attempt with
    | .ok resp => ⟨attempt + 1, [], some resp⟩
    | .error e =>
      if remaining = 0 then ⟨attempt + 1, [], some (handleError elapsed e)⟩
      else
        ⟨(syncRetryGo tokenCfg elapsed retryDelay backend (attempt + 1) remaining).attempts,
         retryDelay ::
           (syncRetryGo tokenCfg elapsed retryDelay backend (attempt + 1) remaining).delays,
         (syncRetryGo tokenCfg elapsed retryDelay backend (attempt + 1) remaining).result⟩

/-- Translates the synchronous `APIClient.generate_response`: when
confirmation is required and denied it returns the cancelled dict before any
attempt, otherwise it runs the retry loop from attempt 0. -/
def generateResponseSync (requireConfirmation confirmed : Bool) (maxRetries : ℕ)
    (retryDelay elapsed : ℚ) (tokenCfg : List (String × ℚ × ℚ))
    (backend : ℕ → Except String Reply) : RetryTrace :=
  if requireConfirmation && !confirmed then
    ⟨0, [],
     some ⟨"Request cancelled by user", 0, 0, 0, 0, 0, 0, 0,
       some "Request cancelled by user"⟩⟩
  else syncRetryGo tokenCfg elapsed retryDelay backend 0 maxRetries

theorem genAsync_allFail_trace :
    ∀ (maxRetries : ℕ) (retryDelay elapsed : ℚ) (tokenCfg : List (String × ℚ × ℚ))
      (backend : ℕ → Except String Reply) (prompt : String) (errs : ℕ → String),
      1 ≤ maxRetries → 0 ≤ retryDelay →
      (∀ i, attemptOutcome tokenCfg elapsed backend i = .error (errs i)) →
      generateResponseAsync false prompt maxRetries retryDelay elapsed tokenCfg backend =
        ⟨maxRetries,
         (List.range (maxRetries - 1)).map (fun i => retryDelay * 2 ^ i),
         some (handleError elapsed (errs (maxRetries - 1)))⟩
      ∧ List.Chain' (· ≤ ·)
          ((List.range (maxRetries - 1)).map (fun i => retryDelay * 2 ^ i))
      ∧ (handleError elapsed (errs (maxRetries - 1))).error = some (errs (maxRetries - 1))
      ∧ (handleError elapsed (errs (maxRetries - 1))).content
          = "[Error: " ++ errs (maxRetries - 1) ++ "]" := by
  intro maxRetries retryDelay elapsed tokenCfg backend prompt errs h1 hd hall
  refine ⟨?_, chain_le_backoff retryDelay hd _, rfl, rfl⟩
  unfold generateResponseAsync
  rw [if_neg (by simp)]
  rw [retryGo_allFail tokenCfg elapsed retryDelay backend errs hall maxRetries 0 h1]
  simp

theorem syncRetryGo_allFail (tokenCfg : List (String × ℚ × ℚ)) (elapsed retryDelay : ℚ)
    (backend : ℕ → Except String Reply) (errs : ℕ → String)
    (hall : ∀ i, attemptOutcome tokenCfg elapsed backend i = .error (errs i)) :
    ∀ remaining attempt, 1 ≤ remaining →
      syncRetryGo tokenCfg elapsed retryDelay backend attempt remaining =
        ⟨attempt + remaining, List.replicate (remaining - 1) retryDelay,
         some (handleError elapsed (errs (attempt + remaining - 1)))⟩ := by
  intro remaining
  induction remaining with
  | zero => intro attempt h; omega
  | succ r ih =>
    intro attempt _
    rw [syncRetryGo, hall attempt]
    by_cases hr : r = 0
    · subst hr
      simp
    · have hr1 : 1 ≤ r := Nat.one_le_iff_ne_zero.mpr hr
      simp only [if_neg hr]
      rw [ih (attempt + 1) hr1]
      obtain ⟨r', rfl⟩ : ∃ r', r = r' + 1 := ⟨r - 1, by omega⟩
      simp only [RetryTrace.mk.injEq]
      refine ⟨by omega, ?_,
        by rw [show attempt + 1 + (r' + 1) - 1 = attempt + (r' + 1 + 1) - 1 by omega]⟩
      rw [show r' + 1 + 1 - 1 = r' + 1 by omega, show r' + 1 - 1 = r' by omega,
        List.replicate_succ]

/-- C5 counterexample: on the synchronous path — which the claim's cited
sources include — three failing attempts with `retry_delay = 1` sleep
`[1, 1]`, while the claimed `retry_delay * 2 ^ attempt` formula demands
`[1, 2]`. -/
theorem C5_sync_counterexample :
    (generateResponseSync false true 3 1 0 [] (fun _ => .error "boom")).delays = [1, 1]
    ∧ (List.range 2).map (fun i => (1 : ℚ) * 2 ^ i) = [1, 2]
    ∧ ([1, 1] : List ℚ) ≠ [1, 2] := by
  refine ⟨?_, ?_, by simp⟩
  · have h := syncRetryGo_allFail [] 0 1 (fun _ => .error "boom") (fun _ => "boom")
      (fun i => rfl) 3 0 (by norm_num)
    unfold generateResponseSync
    rw [if_neg (by simp), h]
    simp [List.replicate]
  · simp [List.range_succ]

/-- C5 (amended): when every attempt fails, both request paths make exactly
`max_retries` attempts and return exactly one Response whose error field is
set and whose content is the error marker; the asynchronous path sleeps
`retry_delay * 2^attempt` between consecutive attempts (hence non-decreasing
delays), while the synchronous path sleeps the constant `retry_delay`. -/
theorem C5_retry_amended :
    (∀ (maxRetries : ℕ) (retryDelay elapsed : ℚ) (tokenCfg : List (String × ℚ × ℚ))
       (backend : ℕ → Except String Reply) (prompt : String) (errs : ℕ → String),
      1 ≤ maxRetries → 0 ≤ retryDelay →
      (∀ i, attemptOutcome tokenCfg elapsed backend i = .error (errs i)) →
      generateResponseAsync false prompt maxRetries retryDelay elapsed tokenCfg backend =
        ⟨maxRetries,
         (List.range (maxRetries - 1)).map (fun i => retryDelay * 2 ^ i),
         some (handleError elapsed (errs (maxRetries - 1)))⟩
      ∧ List.Chain' (· ≤ ·)
          ((List.range (maxRetries - 1)).map (fun i => retryDelay * 2 ^ i))
      ∧ (handleError elapsed (errs (maxRetries - 1))).error = some (errs (maxRetries - 1))
      ∧ (handleError elapsed (errs (maxRetries - 1))).content
          = "[Error: " ++ errs (maxRetries - 1) ++ "]")
    ∧ (∀ (maxRetries : ℕ) (retryDelay elapsed : ℚ) (tokenCfg : List (String × ℚ × ℚ))
       (backend : ℕ → Except String Reply) (errs : ℕ → String),
      1 ≤ maxRetries →
      (∀ i, attemptOutcome tokenCfg elapsed backend i = .error (errs i)) →
      generateResponseSync false true maxRetries retryDelay elapsed tokenCfg backend =
        ⟨maxRetries, List.replicate (maxRetries - 1) retryDelay,
         some (handleError elapsed (errs (maxRetries - 1)))⟩
      ∧ (handleError elapsed (errs (maxRetries - 1))).error = some (errs (maxRetries - 1))
      ∧ (handleError elapsed (errs (maxRetries - 1))).content
          = "[Error: " ++ errs (maxRetries - 1) ++ "]") := by
  constructor
  · exact genAsync_allFail_trace
  · intro maxRetries retryDelay elapsed tokenCfg backend errs h1 hall
    refine ⟨?_, rfl, rfl⟩
    unfold generateResponseSync
    rw [if_neg (by simp)]
    rw [syncRetryGo_allFail tokenCfg elapsed retryDelay backend errs hall maxRetries 0 h1]
    simp

/-- C5 witness: three terminal failures with the default configuration
(`max_retries = 3`, `retry_delay = 1`) on both paths. -/
theorem C5_retry_witness :
    (generateResponseAsync false "p" 3 1 0 [] (fun _ => .error "boom") =
       ⟨3, (List.range 2).map (fun i => (1 : ℚ) * 2 ^ i),
        some (handleError 0 "boom")⟩
     ∧ List.Chain' (· ≤ ·) ((List.range 2).map (fun i => (1 : ℚ) * 2 ^ i))
     ∧ (handleError 0 "boom").error = some "boom"
     ∧ (handleError 0 "boom").content = "[Error: " ++ "boom" ++ "]")
    ∧ (generateResponseSync false true 3 1 0 [] (fun _ => .error "boom") =
        ⟨3, List.replicate 2 (1 : ℚ), some (handleError 0 "boom")⟩
      ∧ (handleError 0 "boom").error = some "boom"
      ∧ (handleError 0 "boom").content = "[Error: " ++ "boom" ++ "]") :=
  ⟨C5_retry_amended.1 3 1 0 [] (fun _ => .error "boom") "p" (fun _ => "boom")
     (by norm_num) (by norm_num) (fun i => rfl),
   C5_retry_amended.2 3 1 0 [] (fun _ => .error "boom") (fun _ => "boom")
     (by norm_num) (fun i => rfl)⟩

/-! ## Theorems for the exception boundary (C6) -/

theorem retryGo_total (tokenCfg : List (String × ℚ × ℚ)) (elapsed retryDelay : ℚ)
    (backend : ℕ → Except String Reply) :
    ∀ remaining attempt, 1 ≤ remaining →
      ∃ r, (retryGo tokenCfg elapsed retryDelay backend attempt remaining).result = some r := by
  intro remaining
  induction remaining with
  | zero => intro attempt h; omega
  | succ r ih =>
    intro attempt _
    rw [retryGo]
    cases attemptOutcome tokenCfg elapsed backend attempt with
    | ok resp => exact ⟨resp, rfl⟩
    | error e =>
      by_cases hr : r = 0
      · subst hr
        exact ⟨handleError elapsed e, by simp⟩
      · have hr1 : 1 ≤ r := Nat.one_le_iff_ne_zero.mpr hr
        simp only [if_neg hr]
        exact ih (attempt + 1) hr1

/-- C6: the Request Client never propagates an exception past its boundary —
with at least one configured attempt, every call returns a Response value —
and a successful backend reply carrying a model identifier absent from the
cost table is reported as a (key) error in the returned Response, not
silently defaulted. -/
theorem C6_no_exception_boundary :
    ∀ (mockMode : Bool) (prompt : String) (maxRetries : ℕ) (retryDelay elapsed : ℚ)
      (tokenCfg : List (String × ℚ × ℚ)) (backend : ℕ → Except String Reply),
      1 ≤ maxRetries →
      (∃ r, (generateResponseAsync mockMode prompt maxRetries retryDelay elapsed
        tokenCfg backend).result = some r)
      ∧ (∀ reply : Reply, mockMode = false →
          List.lookup reply.model tokenCfg = none →
          (∀ i, backend i = .ok reply) →
          (generateResponseAsync mockMode prompt maxRetries retryDelay elapsed
            tokenCfg backend).result
            = some (handleError elapsed ("'" ++ reply.model ++ "'"))
          ∧ (handleError elapsed ("'" ++ reply.model ++ "'")).error
            = some ("'" ++ reply.model ++ "'")) := by
  intro mockMode prompt maxRetries retryDelay elapsed tokenCfg backend h1
  constructor
  · cases mockMode with
    | true => exact ⟨_, rfl⟩
    | false =>
      unfold generateResponseAsync
      rw [if_neg (by simp)]
      exact retryGo_total tokenCfg elapsed retryDelay backend maxRetries 0 h1
  · intro reply hmock hlookup hok
    subst hmock
    have hall : ∀ i, attemptOutcome tokenCfg elapsed backend i
        = .error ("'" ++ reply.model ++ "'") := by
      intro i
      simp only [attemptOutcome, hok i, processResponse, hlookup]
    refine ⟨?_, rfl⟩
    unfold generateResponseAsync
    rw [if_neg (by simp)]
    rw [retryGo_allFail tokenCfg elapsed retryDelay backend
      (fun _ => "'" ++ reply.model ++ "'") hall maxRetries 0 h1]

/-- C6 witness: an unknown model id with the default three attempts. -/
theorem C6_witness :
    (∃ r, (generateResponseAsync false "p" 3 1 0 []
      (fun _ => .ok ⟨"hi", 1, 2, "gpt-x"⟩)).result = some r)
    ∧ ((generateResponseAsync false "p" 3 1 0 []
        (fun _ => .ok ⟨"hi", 1, 2, "gpt-x"⟩)).result
        = some (handleError 0 ("'" ++ "gpt-x" ++ "'"))
      ∧ (handleError 0 ("'" ++ "gpt-x" ++ "'")).error = some ("'" ++ "gpt-x" ++ "'")) :=
  ⟨(C6_no_exception_boundary false "p" 3 1 0 []
      (fun _ => .ok ⟨"hi", 1, 2, "gpt-x"⟩) (by norm_num)).1,
   (C6_no_exception_boundary false "p" 3 1 0 []
      (fun _ => .ok ⟨"hi", 1, 2, "gpt-x"⟩) (by norm_num)).2
     ⟨"hi", 1, 2, "gpt-x"⟩ rfl rfl (fun i => rfl)⟩

/-! ## Theorems for memory eviction (C7) -/

/-- The eviction policy as the spec words it: sort by (importance descending,
recency descending), keep the top `2 × memory_size`, then re-sort by recency
ascending. -/
def evictSpec (memorySize : ℕ) (l : List MemEntry) : List MemEntry :=
  ((l.insertionSort keyDescOrd).take (2 * memorySize)).insertionSort tsAscOrd

/-- C7: after every memory update the memory holds at most `2 × memory_size`
entries and is in timestamp-ascending order (given a monotone clock), and
whenever the bound is exceeded the kept entries are exactly the spec's
two-phase selection. -/
theorem C7_memory_bound_and_order :
    ∀ (memorySize : ℕ) (mems : List MemEntry) (prompt response : String) (t1 t2 : ℚ),
      List.Sorted tsAscOrd mems →
      (∀ e ∈ mems, e.timestamp ≤ t1) → t1 ≤ t2 →
      (updateMemory memorySize mems prompt response t1 t2).length ≤ memorySize * 2
      ∧ List.Sorted tsAscOrd (updateMemory memorySize mems prompt response t1 t2)
      ∧ (memorySize * 2 <
          (mems ++ ([⟨"user", prompt, t1, calcImportance prompt⟩,
                    ⟨"assistant", response, t2, calcImportance response⟩] :
                    List MemEntry)).length →
          updateMemory memorySize mems prompt response t1 t2 =
            evictSpec memorySize
              (mems ++ ([⟨"user", prompt, t1, calcImportance prompt⟩,
                        ⟨"assistant", response, t2, calcImportance response⟩] :
                        List MemEntry))) := by
  intro memorySize mems prompt response t1 t2 hsorted hfresh h12
  set e1 : MemEntry := ⟨"user", prompt, t1, calcImportance prompt⟩ with he1
  set e2 : MemEntry := ⟨"assistant", response, t2, calcImportance response⟩ with he2
  set appended := mems ++ [e1, e2] with happ
  by_cases hcase : memorySize * 2 < appended.length
  · have hupd : updateMemory memorySize mems prompt response t1 t2 =
        ((appended.insertionSort keyDescOrd).take (memorySize * 2)).insertionSort tsAscOrd := by
      unfold updateMemory
      rw [if_pos hcase]
    refine ⟨?_, ?_, fun _ => ?_⟩
    · rw [hupd]
      calc (((appended.insertionSort keyDescOrd).take (memorySize * 2)).insertionSort
              tsAscOrd).length
          = ((appended.insertionSort keyDescOrd).take (memorySize * 2)).length :=
            (List.perm_insertionSort tsAscOrd _).length_eq
        _ ≤ memorySize * 2 := by
            rw [List.length_take]
            exact min_le_left _ _
    · rw [hupd]
      exact List.sorted_insertionSort tsAscOrd _
    · rw [hupd]
      unfold evictSpec
      rw [Nat.mul_comm 2 memorySize]
  · have hupd : updateMemory memorySize mems prompt response t1 t2 = appended := by
      unfold updateMemory
      rw [if_neg hcase]
    refine ⟨?_, ?_, fun hc => absurd hc hcase⟩
    · rw [hupd]
      omega
    · rw [hupd, happ]
      refine List.pairwise_append.mpr ⟨hsorted, ?_, ?_⟩
      · refine List.Pairwise.cons ?_ (List.pairwise_singleton _ _)
        intro y hy
        rw [List.mem_singleton] at hy
        subst hy
        exact h12
      · intro x hx y hy
        have hxt : x.timestamp ≤ t1 := hfresh x hx
        simp only [List.mem_cons, List.mem_singleton, List.not_mem_nil, or_false] at hy
        rcases hy with rfl | rfl
        · exact hxt
        · exact le_trans hxt h12

/-- C7 witness: updating an empty memory of capacity two with a fresh clock. -/
theorem C7_witness :
    (updateMemory 2 [] "p" "r" 0 1).length ≤ 2 * 2
    ∧ List.Sorted tsAscOrd (updateMemory 2 [] "p" "r" 0 1)
    ∧ (2 * 2 <
        (([] : List MemEntry) ++ ([⟨"user", "p", 0, calcImportance "p"⟩,
                  ⟨"assistant", "r", 1, calcImportance "r"⟩] : List MemEntry)).length →
        updateMemory 2 [] "p" "r" 0 1 =
          evictSpec 2
            (([] : List MemEntry) ++ ([⟨"user", "p", 0, calcImportance "p"⟩,
                      ⟨"assistant", "r", 1, calcImportance "r"⟩] : List MemEntry))) :=
  C7_memory_bound_and_order 2 [] "p" "r" 0 1 (by simp) (by simp) (by norm_num)

/-! ## Pipeline confirmation gate (src/run_pipeline.py lines 87-163) -/

/-- The `while True` input loop of `run_pipeline`: the first answer equal
(lowercased) to `y`/`yes` confirms, the first `n`/`no` cancels, anything else
re-prompts; an exhausted stream (`none`) models blocking forever. -/
def firstAnswer : List String → Option Bool
  | [] => none
  | a :: rest =>
    if pyLower a = "y" ∨ pyLower a = "yes" then some true
    else if pyLower a = "n" ∨ pyLower a = "no" then some false
    else firstAnswer rest

/-- Observable outcome of one `run_pipeline` call: the `status`/`message`
fields when the cancelled dict is returned (absent on the completed path),
the number of backend requests issued, and whether the confirmation summary
was printed. -/
structure PipeRun where
  statusField : Option String
  message : Option String
  requestsIssued : ℕ
  promptShown : Bool
deriving DecidableEq, Repr

/-- Translates `run_pipeline`'s top-level confirmation gate.  Everything
before the gate (directory creation, `PipelineManager` construction) issues
no backend request; the delegated case run after the gate issues
`engineRequests` of them.  A negative answer returns
`{"status": "cancelled", "message": ...}` before the case run. -/
def runPipelineGate (requireConfirmation : Bool) (answers : List String)
    (engineRequests : ℕ) : Option PipeRun :=
  if requireConfirmation then
    match firstAnswer answers with
    | some true => some ⟨none, none, engineRequests, true⟩
    | some false =>
      some ⟨some "cancelled", some "Pipeline execution cancelled by user", 0, true⟩
    | none => none
  else some ⟨none, none, engineRequests, false⟩

/-- C3: with confirmation required and a negative user answer, the run
returns the `"cancelled"` status, the confirmation summary was presented,
and zero backend requests are issued, whatever the delegated case run would
have cost. -/
theorem C3_cancelled_before_dispatch :
    ∀ (answers : List String) (engineRequests : ℕ),
      firstAnswer answers = some false →
      runPipelineGate true answers engineRequests =
        some ⟨some "cancelled", some "Pipeline execution cancelled by user", 0, true⟩ := by
  intro answers engineRequests h
  simp [runPipelineGate, h]

/-- C3 witness: a garbled answer followed by "n", with a case run that would
have issued five requests. -/
theorem C3_witness :
    runPipelineGate true ["maybe", "n"] 5 =
      some ⟨some "cancelled", some "Pipeline execution cancelled by user", 0, true⟩ :=
  C3_cancelled_before_dispatch ["maybe", "n"] 5 (by decide)

/-! ## Admission gate (src/consultai/utils/api_client.py) -/

/-- Phase of one gathered request task. -/
inductive ReqPhase
  | pending
  | inFlight
  | done
deriving DecidableEq, Repr

/-- One interleaving step of the tasks gathered by
`make_parallel_requests`.  A state is (per-task phase, free permits of
`self.semaphore`).  The body of `generate_response_async` awaits only the
backend call and the backoff sleeps: no path acquires `self.semaphore`
(created in `APIClient.__init__` and referenced nowhere else), so a pending
request starts unconditionally and the permit counter is never touched. -/
inductive GatherStep : (List ReqPhase × ℕ) → (List ReqPhase × ℕ) → Prop
  | start (phases : List ReqPhase) (permits : ℕ) (i : ℕ)
      (h : phases.get? i = some .pending) :
      GatherStep (phases, permits) (phases.set i .inFlight, permits)
  | finish (phases : List ReqPhase) (permits : ℕ) (i : ℕ)
      (h : phases.get? i = some .inFlight) :
      GatherStep (phases, permits) (phases.set i .done, permits)

/-- Number of requests currently in flight. -/
def inFlightCount (phases : List ReqPhase) : ℕ :=
  phases.countP (fun p => decide (p = ReqPhase.inFlight))

/-- C4: the admission gate is dead code — no step ever consumes a permit,
and from four pending requests under the default bound of three there is a
reachable state with all four simultaneously in flight, violating the
claimed bound. -/
theorem C4_gate_never_acquired :
    (∀ s t : List ReqPhase × ℕ, GatherStep s t → t.2 = s.2)
    ∧ (∃ s : List ReqPhase × ℕ,
        Relation.ReflTransGen GatherStep
          ([.pending, .pending, .pending, .pending], 3) s
        ∧ 3 < inFlightCount s.1) := by
  constructor
  · intro s t h
    cases h <;> rfl
  · refine ⟨([.inFlight, .inFlight, .inFlight, .inFlight], 3), ?_, by decide⟩
    have t1 : GatherStep ([.pending, .pending, .pending, .pending], 3)
        ([.inFlight, .pending, .pending, .pending], 3) :=
      GatherStep.start _ 3 0 (by decide)
    have t2 : GatherStep ([.inFlight, .pending, .pending, .pending], 3)
        ([.inFlight, .inFlight, .pending, .pending], 3) :=
      GatherStep.start _ 3 1 (by decide)
    have t3 : GatherStep ([.inFlight, .inFlight, .pending, .pending], 3)
        ([.inFlight, .inFlight, .inFlight, .pending], 3) :=
      GatherStep.start _ 3 2 (by decide)
    have t4 : GatherStep ([.inFlight, .inFlight, .inFlight, .pending], 3)
        ([.inFlight, .inFlight, .inFlight, .inFlight], 3) :=
      GatherStep.start _ 3 3 (by decide)
    exact Relation.ReflTransGen.head t1 (Relation.ReflTransGen.head t2
      (Relation.ReflTransGen.head t3 (Relation.ReflTransGen.single t4)))

/-- C4 witness: the permit-preservation half of the theorem applied to one
concrete start step. -/
theorem C4_witness :
    (([ReqPhase.pending, .pending, .pending, .pending].set 0 .inFlight, 3) :
      List ReqPhase × ℕ).2
      = (([.pending, .pending, .pending, .pending], 3) : List ReqPhase × ℕ).2 :=
  C4_gate_never_acquired.1 _ _ (GatherStep.start _ 3 0 (by decide))

/-! ## Consensus detection (DeliberationManager._check_consensus,
src/consultai/models/deliberation.py) -/

/-- Scanner of `_check_consensus` collecting the latest response per agent
while walking the reversed transcript: an entry is kept when its role is not
yet present, and the scan stops once `len(self.agents)` responses are
collected. -/
def latestGo (numAgents : ℕ) : List (String × String) → List (String × String) →
    List (String × String)
  | acc, [] => acc
  | acc, e :: rest =>
    if (acc.map Prod.fst).contains e.1 then
      if acc.length = numAgents then acc else latestGo numAgents acc rest
    else
      if (acc ++ [e]).length = numAgents then acc ++ [e]
      else latestGo numAgents (acc ++ [e]) rest

/-- The `latest_responses` dict of `_check_consensus`, as an insertion-ordered
association list. -/
def latestResponses (numAgents : ℕ) (hist : List (String × String)) :
    List (String × String) :=
  latestGo numAgents [] hist.reverse

/-- Section headers scanned by `_extract_agent_key_points`. -/
def sectionHeaders : List String :=
  ["recommendation", "conclusion", "assessment", "approach", "solution"]

/-- Action verbs of the sentence fallback in `_extract_agent_key_points`. -/
def actionTerms : List String :=
  ["should", "recommend", "suggest", "propose", "advise"]

/-- Translates `DeliberationManager._extract_agent_key_points`: for each
section header contained in the lowercased response, the first paragraph
after the first occurrence; if none matched, every sentence containing an
action verb. -/
def extractKeyPoints (response : String) : List String :=
  let lower := pyLower response
  let fromSections := sectionHeaders.foldl (fun acc sec =>
    if pyIn sec lower then
      if 1 < (pySplit lower sec).length then
        acc ++ [pyStrip ((((pySplit (((pySplit lower sec).get? 1).getD "")
          "\n\n").get? 0).getD ""))]
      else acc
    else acc) []
  if fromSections.isEmpty then
    (pySplit response ".").foldl (fun acc sentence =>
      if actionTerms.any (fun t => pyIn t (pyLower sentence)) then
        acc ++ [pyStrip sentence]
      else acc) []
  else fromSections

/-- Models Python `set(p.lower().split())`: the word set of a key point, as a
duplicate-free list (only membership and size are consumed). -/
def wordSet (s : String) : List String := (pyLowerWords s).dedup

/-- One iteration of the nested loops of `_calculate_agreement_score`:
skip the pair if either word set is empty, otherwise accumulate the Jaccard
similarity `|w1 ∩ w2| / |w1 ∪ w2|` and bump the comparison counter. -/
def interCount (w1 w2 : List String) : ℕ :=
  (w1.filter (fun w => w2.contains w)).length

/-- Size of `words1.union(words2)` for duplicate-free word lists. -/
def unionCount (w1 w2 : List String) : ℕ :=
  w1.length + (w2.filter (fun w => ¬ w1.contains w)).length

def jaccStep (acc : ℚ × ℕ) (pr : String × String) : ℚ × ℕ :=
  if (wordSet pr.1).isEmpty ∨ (wordSet pr.2).isEmpty then acc
  else
    if 0 < unionCount (wordSet pr.1) (wordSet pr.2) then
      (acc.1 + (interCount (wordSet pr.1) (wordSet pr.2) : ℚ) /
        (unionCount (wordSet pr.1) (wordSet pr.2) : ℚ), acc.2 + 1)
    else acc

/-- All (p1, p2) pairs visited by the nested `for p1 … for p2` loops. -/
def pairProd (l1 l2 : List String) : List (String × String) :=
  (l1.map (fun a => l2.map (fun b => (a, b)))).flatten

/-- Translates `DeliberationManager._calculate_agreement_score`: zero when
either key-point list is empty, else the mean Jaccard similarity over the
comparable pairs (zero when no pair was comparable). -/
def agreementScore (points1 points2 : List String) : ℚ :=
  if points1.isEmpty ∨ points2.isEmpty then 0
  else
    if 0 < ((pairProd points1 points2).foldl jaccStep (0, 0)).2 then
      ((pairProd points1 points2).foldl jaccStep (0, 0)).1 /
        (((pairProd points1 points2).foldl jaccStep (0, 0)).2 : ℚ)
    else 0

/-- The `i < j` index pairs of the agent-key list, in loop order. -/
def pairsOf {α : Type} : List α → List (α × α)
  | [] => []
  | x :: xs => xs.map (fun y => (x, y)) ++ pairsOf xs

/-- Python dict assignment `d[k] = v` on an insertion-ordered association
list: overwrite in place when the key exists, else append. -/
def upsert (d : List (String × ℚ)) (k : String) (v : ℚ) : List (String × ℚ) :=
  if (d.map Prod.fst).contains k then
    d.map (fun p => if p.1 = k then (k, v) else p)
  else d ++ [(k, v)]

/-- The key points per agent: `latest_responses` mapped through
`_extract_agent_key_points`. -/
def keyPtsOf (numAgents : ℕ) (hist : List (String × String)) :
    List (String × List String) :=
  (latestResponses numAgents hist).map (fun rc => (rc.1, extractKeyPoints rc.2))

/-- The `agreement_scores` dict of `_check_consensus`: for each unordered
agent pair, the score stored under the string key `agent1 + "_" + agent2` —
colliding keys overwrite earlier pairs. -/
def scoreDict (keyPts : List (String × List String)) : List (String × ℚ) :=
  (pairsOf keyPts).foldl
    (fun d pp => upsert d (pp.1.1 ++ "_" ++ pp.2.1) (agreementScore pp.1.2 pp.2.2)) []

/-- `sum(agreement_scores.values()) / len(agreement_scores)` with the
`if agreement_scores else 0` guard. -/
def dictAvg (d : List (String × ℚ)) : ℚ :=
  if d.isEmpty then 0 else (d.map Prod.snd).sum / (d.length : ℚ)

/-- Translates `DeliberationManager._check_consensus` (the confidence-tracker
side effect, modelled by `extractConfidence`, does not affect the returned
value): fewer than two transcript entries or fewer than two latest responses
give `False`, else the dict-averaged agreement is compared against `0.8`. -/
def checkConsensus (numAgents : ℕ) (hist : List (String × String)) : Bool :=
  if hist.length < 2 then false
  else
    if (keyPtsOf numAgents hist).length < 2 then false
    else decide (4/5 < dictAvg (scoreDict (keyPtsOf numAgents hist)))

/-- The claim's aggregation: the mean over the scores of all agent pairs
(no dict keying), zero when there are no pairs. -/
def allPairMean (numAgents : ℕ) (hist : List (String × String)) : ℚ :=
  let scores := (pairsOf (keyPtsOf numAgents hist)).map
    (fun pp => agreementScore pp.1.2 pp.2.2)
  if scores.isEmpty then 0 else scores.sum / (scores.length : ℚ)

/-- The code's aggregation, named for the amended claim: the mean over the
`agreement_scores` dict values. -/
def dictPairMean (numAgents : ℕ) (hist : List (String × String)) : ℚ :=
  dictAvg (scoreDict (keyPtsOf numAgents hist))

/-- Number of agents (among the latest responses) that contributed at least
one key point. -/
def contributorCount (numAgents : ℕ) (hist : List (String × String)) : ℕ :=
  ((keyPtsOf numAgents hist).filter (fun rp => !rp.2.isEmpty)).length

/-- Number of distinct agents appearing in the transcript. -/
def distinctAgents (hist : List (String × String)) : ℕ :=
  (hist.map Prod.fst).dedup.length

theorem latestGo_length_le (n : ℕ) :
    ∀ (l acc : List (String × String)), (latestGo n acc l).length ≤ acc.length + l.length := by
  intro l
  induction l with
  | nil => intro acc; simp [latestGo]
  | cons e rest ih =>
    intro acc
    rw [latestGo]
    split
    · split
      · simp
      · calc (latestGo n acc rest).length ≤ acc.length + rest.length := ih acc
          _ ≤ acc.length + (rest.length + 1) := by omega
    · split
      · simp
      · calc (latestGo n (acc ++ [e]) rest).length
            ≤ (acc ++ [e]).length + rest.length := ih (acc ++ [e])
          _ ≤ acc.length + (rest.length + 1) := by simp; omega

theorem latestGo_keys_nodup (n : ℕ) :
    ∀ (l acc : List (String × String)), (acc.map Prod.fst).Nodup →
      ((latestGo n acc l).map Prod.fst).Nodup := by
  intro l
  induction l with
  | nil => intro acc h; simpa [latestGo] using h
  | cons e rest ih =>
    intro acc hacc
    rw [latestGo]
    split
    · split
      · exact hacc
      · exact ih acc hacc
    · next hcont =>
      have hmem : e.1 ∉ acc.map Prod.fst := by
        simpa using hcont
      have hacc' : ((acc ++ [e]).map Prod.fst).Nodup := by
        rw [List.map_append]
        rw [List.nodup_append]
        exact ⟨hacc, List.nodup_singleton _, by simpa using hmem⟩
      split
      · exact hacc'
      · exact ih (acc ++ [e]) hacc'

theorem latestGo_keys_subset (n : ℕ) :
    ∀ (l acc : List (String × String)) (x : String),
      x ∈ (latestGo n acc l).map Prod.fst →
      x ∈ acc.map Prod.fst ∨ x ∈ l.map Prod.fst := by
  intro l
  induction l with
  | nil => intro acc x hx; left; simpa [latestGo] using hx
  | cons e rest ih =>
    intro acc x hx
    rw [latestGo] at hx
    have happ : x ∈ (acc ++ [e]).map Prod.fst →
        x ∈ acc.map Prod.fst ∨ x ∈ (e :: rest).map Prod.fst := by
      intro h
      rw [List.map_append, List.mem_append] at h
      rcases h with h | h
      · exact Or.inl h
      · right
        rw [List.map_cons, List.mem_cons]
        exact Or.inl (by simpa using h)
    split at hx
    · split at hx
      · exact Or.inl hx
      · rcases ih acc x hx with h | h
        · exact Or.inl h
        · right
          rw [List.map_cons, List.mem_cons]
          exact Or.inr h
    · split at hx
      · exact happ hx
      · rcases ih (acc ++ [e]) x hx with h | h
        · exact happ h
        · right
          rw [List.map_cons, List.mem_cons]
          exact Or.inr h

theorem latestResponses_length_le (n : ℕ) (hist : List (String × String)) :
    (latestResponses n hist).length ≤ hist.length := by
  have := latestGo_length_le n hist.reverse []
  simpa [latestResponses] using this

theorem latestResponses_le_distinct (n : ℕ) (hist : List (String × String)) :
    (latestResponses n hist).length ≤ distinctAgents hist := by
  have hnodup : ((latestResponses n hist).map Prod.fst).Nodup :=
    latestGo_keys_nodup n hist.reverse [] (by simp)
  have hsub : ∀ x ∈ (latestResponses n hist).map Prod.fst, x ∈ hist.map Prod.fst := by
    intro x hx
    rcases latestGo_keys_subset n hist.reverse [] x hx with h | h
    · simp at h
    · rw [List.map_reverse, List.mem_reverse] at h
      exact h
  have hfin : ((latestResponses n hist).map Prod.fst).toFinset ⊆
      (hist.map Prod.fst).toFinset := by
    intro x hx
    rw [List.mem_toFinset] at *
    exact hsub x hx
  have hcard := Finset.card_le_card hfin
  rw [List.toFinset_card_of_nodup hnodup, List.card_toFinset] at hcard
  unfold distinctAgents
  calc (latestResponses n hist).length
      = ((latestResponses n hist).map Prod.fst).length := (List.length_map _ _).symm
    _ ≤ (hist.map Prod.fst).dedup.length := hcard

theorem jaccFold_fst_nonneg :
    ∀ (prs : List (String × String)) (acc : ℚ × ℕ),
      0 ≤ acc.1 → 0 ≤ (prs.foldl jaccStep acc).1 := by
  intro prs
  induction prs with
  | nil => intro acc h; simpa using h
  | cons p rest ih =>
    intro acc h
    rw [List.foldl_cons]
    apply ih
    unfold jaccStep
    split
    · exact h
    · split
      · exact add_nonneg h (div_nonneg (Nat.cast_nonneg _) (Nat.cast_nonneg _))
      · exact h

theorem agreementScore_nonneg (p1 p2 : List String) : 0 ≤ agreementScore p1 p2 := by
  unfold agreementScore
  split
  · norm_num
  · split
    · exact div_nonneg (jaccFold_fst_nonneg _ (0, 0) le_rfl) (Nat.cast_nonneg _)
    · norm_num

theorem agreementScore_ne_zero (p1 p2 : List String)
    (h : agreementScore p1 p2 ≠ 0) :
    p1.isEmpty = false ∧ p2.isEmpty = false := by
  unfold agreementScore at h
  by_cases h1 : p1.isEmpty <;> by_cases h2 : p2.isEmpty <;> simp_all

theorem upsert_snd_mem (d : List (String × ℚ)) (k : String) (v : ℚ) :
    ∀ x ∈ (upsert d k v).map Prod.snd, x ∈ d.map Prod.snd ∨ x = v := by
  intro x hx
  unfold upsert at hx
  split at hx
  · rw [List.map_map] at hx
    obtain ⟨p, hp, hpx⟩ := List.mem_map.mp hx
    by_cases hk : p.1 = k
    · right
      simp only [Function.comp, hk, if_pos] at hpx
      exact hpx.symm
    · left
      simp only [Function.comp, hk, if_neg, if_false] at hpx
      exact hpx ▸ List.mem_map.mpr ⟨p, hp, rfl⟩
  · rw [List.map_append, List.mem_append] at hx
    rcases hx with hx | hx
    · exact Or.inl hx
    · right
      simpa using hx

theorem foldUpsert_values :
    ∀ (prs : List ((String × List String) × (String × List String)))
      (d : List (String × ℚ)) (x : ℚ),
      x ∈ ((prs.foldl (fun d pp =>
            upsert d (pp.1.1 ++ "_" ++ pp.2.1) (agreementScore pp.1.2 pp.2.2)) d).map
            Prod.snd) →
      x ∈ d.map Prod.snd ∨ ∃ pp ∈ prs, x = agreementScore pp.1.2 pp.2.2 := by
  intro prs
  induction prs with
  | nil => intro d x hx; exact Or.inl hx
  | cons p rest ih =>
    intro d x hx
    rw [List.foldl_cons] at hx
    rcases ih _ x hx with hin | ⟨pp, hpp, hval⟩
    · rcases upsert_snd_mem d _ _ x hin with h | h
      · exact Or.inl h
      · exact Or.inr ⟨p, List.mem_cons_self p rest, h⟩
    · exact Or.inr ⟨pp, List.mem_cons_of_mem p hpp, hval⟩

theorem exists_pos_of_sum_pos : ∀ (l : List ℚ), 0 < l.sum → ∃ x ∈ l, 0 < x := by
  intro l
  induction l with
  | nil => simp
  | cons a rest ih =>
    intro h
    rw [List.sum_cons] at h
    by_cases ha : 0 < a
    · exact ⟨a, List.mem_cons_self a rest, ha⟩
    · push_neg at ha
      obtain ⟨x, hx, hpos⟩ := ih (by linarith)
      exact ⟨x, List.mem_cons_of_mem a hx, hpos⟩

theorem pairsOf_sublist {α : Type} :
    ∀ (l : List α) (p : α × α), p ∈ pairsOf l → List.Sublist [p.1, p.2] l := by
  intro l
  induction l with
  | nil => intro p hp; simp [pairsOf] at hp
  | cons x xs ih =>
    intro p hp
    rw [pairsOf, List.mem_append] at hp
    rcases hp with hp | hp
    · obtain ⟨y, hy, rfl⟩ := List.mem_map.mp hp
      exact List.Sublist.cons₂ x (List.singleton_sublist.mpr hy)
    · exact List.Sublist.cons x (ih p hp)

theorem two_le_filter_of_pair {α : Type} (P : α → Bool) (l : List α) (a b : α)
    (hs : List.Sublist [a, b] l) (ha : P a = true) (hb : P b = true) :
    2 ≤ (l.filter P).length := by
  have h1 : List.Sublist ([a, b].filter P) (l.filter P) := List.Sublist.filter P hs
  have h2 : [a, b].filter P = [a, b] := by simp [List.filter, ha, hb]
  rw [h2] at h1
  simpa using h1.length_le

theorem dictAvg_pos_value (d : List (String × ℚ)) (h : 4/5 < dictAvg d) :
    ∃ x ∈ d.map Prod.snd, 0 < x := by
  unfold dictAvg at h
  split at h
  · exact absurd h (by norm_num)
  · next hne =>
    have hlen : 0 < (d.length : ℚ) := by
      have : d ≠ [] := by simpa [List.isEmpty_iff] using hne
      have : 0 < d.length := List.length_pos.mpr this
      exact_mod_cast this
    have hsum : 0 < (d.map Prod.snd).sum := by
      have h45 : (4/5 : ℚ) * d.length < (d.map Prod.snd).sum :=
        (lt_div_iff₀ hlen).mp h
      nlinarith
    exact exists_pos_of_sum_pos _ hsum

/-- C1 (amended): consensus detection returns true iff the mean of the
pairwise agreement scores as aggregated by the code's `agent1_agent2`-keyed
dict (colliding keys keep only the last pair) exceeds 0.8 and at least two
agents have contributed key points; in particular, for any transcript with
fewer than 2 distinct agent entries it returns false.  For role names whose
pair keys do not collide the dict mean coincides with the mean over all
pairs, but not in general (see the counterexample). -/
theorem C1_consensus_amended :
    (∀ (numAgents : ℕ) (hist : List (String × String)),
      checkConsensus numAgents hist = true ↔
        (4/5 < dictPairMean numAgents hist ∧ 2 ≤ contributorCount numAgents hist))
    ∧ (∀ (numAgents : ℕ) (hist : List (String × String)),
        distinctAgents hist < 2 → checkConsensus numAgents hist = false) := by
  have main : ∀ (numAgents : ℕ) (hist : List (String × String)),
      checkConsensus numAgents hist = true ↔
        (4/5 < dictPairMean numAgents hist ∧ 2 ≤ contributorCount numAgents hist) := by
    intro n hist
    constructor
    · intro h
      unfold checkConsensus at h
      by_cases h1 : hist.length < 2
      · rw [if_pos h1] at h
        exact absurd h (by simp)
      rw [if_neg h1] at h
      by_cases h2 : (keyPtsOf n hist).length < 2
      · rw [if_pos h2] at h
        exact absurd h (by simp)
      rw [if_neg h2] at h
      have havg : 4/5 < dictAvg (scoreDict (keyPtsOf n hist)) := of_decide_eq_true h
      refine ⟨havg, ?_⟩
      obtain ⟨x, hxmem, hxpos⟩ := dictAvg_pos_value _ havg
      have hxmem' : x ∈ ((pairsOf (keyPtsOf n hist)).foldl
          (fun d pp => upsert d (pp.1.1 ++ "_" ++ pp.2.1)
            (agreementScore pp.1.2 pp.2.2)) []).map Prod.snd := hxmem
      rcases foldUpsert_values _ [] x hxmem' with hin | ⟨pp, hppmem, hval⟩
      · simp at hin
      have hne : agreementScore pp.1.2 pp.2.2 ≠ 0 := by
        rw [← hval]
        exact ne_of_gt hxpos
      obtain ⟨hp1, hp2⟩ := agreementScore_ne_zero _ _ hne
      have hsub := pairsOf_sublist (keyPtsOf n hist) pp hppmem
      exact two_le_filter_of_pair (fun rp => !rp.2.isEmpty) _ pp.1 pp.2 hsub
        (by simp [hp1]) (by simp [hp2])
    · rintro ⟨havg, hcontrib⟩
      have hkp2 : 2 ≤ (keyPtsOf n hist).length :=
        le_trans hcontrib (List.length_filter_le _ _)
      have hlat : (keyPtsOf n hist).length = (latestResponses n hist).length := by
        unfold keyPtsOf
        rw [List.length_map]
      have hh2 : 2 ≤ hist.length := by
        have := latestResponses_length_le n hist
        omega
      unfold checkConsensus
      rw [if_neg (by omega), if_neg (by omega)]
      exact decide_eq_true havg
  refine ⟨main, fun n hist hd => ?_⟩
  cases hcc : checkConsensus n hist with
  | false => rfl
  | true =>
    exfalso
    obtain ⟨_, hcontrib⟩ := (main n hist).mp hcc
    have hkp2 : 2 ≤ (keyPtsOf n hist).length :=
      le_trans hcontrib (List.length_filter_le _ _)
    have hlat : (keyPtsOf n hist).length = (latestResponses n hist).length := by
      unfold keyPtsOf
      rw [List.length_map]
    have hdist := latestResponses_le_distinct n hist
    omega

/-- C1 witness: a transcript with two entries by the same agent has fewer
than two distinct agent entries, and consensus detection returns false. -/
theorem C1_witness :
    checkConsensus 4 [("x", "should a"), ("x", "should b")] = false :=
  C1_consensus_amended.2 4 [("x", "should a"), ("x", "should b")] (by decide)

/-- Single-key-point agreement: with both word sets non-empty the score is
one Jaccard ratio. -/
theorem agreementScore_single (p1 p2 : String)
    (hw1 : (wordSet p1).isEmpty = false) (hw2 : (wordSet p2).isEmpty = false)
    (hu : 0 < unionCount (wordSet p1) (wordSet p2)) :
    agreementScore [p1] [p2] =
      (interCount (wordSet p1) (wordSet p2) : ℚ) /
        (unionCount (wordSet p1) (wordSet p2) : ℚ) := by
  simp [agreementScore, pairProd, jaccStep, hw1, hw2, hu]

/-- Contents of the colliding-key counterexample: four agents named `x`,
`y_z`, `x_y`, `z`, whose key-point word sets share seven of nine words
(`x` and `y_z` coincide). -/
def acC1 : String := "should k1 k2 k3 k4 k5 k6 aa"

def bcC1 : String := "should k1 k2 k3 k4 k5 k6 bb"

def ccC1 : String := "should k1 k2 k3 k4 k5 k6 cc"

/-- The counterexample transcript, oldest entry first. -/
def histC1 : List (String × String) :=
  [("z", ccC1), ("x_y", bcC1), ("y_z", acC1), ("x", acC1)]

/-- C1 counterexample: on `histC1` the pair `(x, y_z)` (score 1) and the pair
`(x_y, z)` (score 7/9) share the dict key `"x_y_z"`, so the code averages
only five scores (mean 7/9 ≤ 0.8, hence `False`) while the claim's mean over
all six pairs is 22/27 > 0.8 with four contributing agents (hence `true`). -/
theorem C1_counterexample :
    checkConsensus 4 histC1 = false
    ∧ 4/5 < allPairMean 4 histC1
    ∧ 2 ≤ contributorCount 4 histC1 := by
  have hkp : keyPtsOf 4 histC1 =
      [("x", [acC1]), ("y_z", [acC1]), ("x_y", [bcC1]), ("z", [ccC1])] := by decide
  have hpairs : pairsOf
      [("x", [acC1]), ("y_z", [acC1]), ("x_y", [bcC1]), ("z", [ccC1])] =
      [(("x", [acC1]), ("y_z", [acC1])), (("x", [acC1]), ("x_y", [bcC1])),
       (("x", [acC1]), ("z", [ccC1])), (("y_z", [acC1]), ("x_y", [bcC1])),
       (("y_z", [acC1]), ("z", [ccC1])), (("x_y", [bcC1]), ("z", [ccC1]))] := by decide
  have sAA : agreementScore [acC1] [acC1] = 1 := by
    rw [agreementScore_single _ _ (by decide) (by decide) (by decide)]
    have h1 : interCount (wordSet acC1) (wordSet acC1) = 8 := by decide
    have h2 : unionCount (wordSet acC1) (wordSet acC1) = 8 := by decide
    rw [h1, h2]
    norm_num
  have sAB : agreementScore [acC1] [bcC1] = 7/9 := by
    rw [agreementScore_single _ _ (by decide) (by decide) (by decide)]
    have h1 : interCount (wordSet acC1) (wordSet bcC1) = 7 := by decide
    have h2 : unionCount (wordSet acC1) (wordSet bcC1) = 9 := by decide
    rw [h1, h2]
    norm_num
  have sAC : agreementScore [acC1] [ccC1] = 7/9 := by
    rw [agreementScore_single _ _ (by decide) (by decide) (by decide)]
    have h1 : interCount (wordSet acC1) (wordSet ccC1) = 7 := by decide
    have h2 : unionCount (wordSet acC1) (wordSet ccC1) = 9 := by decide
    rw [h1, h2]
    norm_num
  have sBC : agreementScore [bcC1] [ccC1] = 7/9 := by
    rw [agreementScore_single _ _ (by decide) (by decide) (by decide)]
    have h1 : interCount (wordSet bcC1) (wordSet ccC1) = 7 := by decide
    have h2 : unionCount (wordSet bcC1) (wordSet ccC1) = 9 := by decide
    rw [h1, h2]
    norm_num
  refine ⟨?_, ?_, ?_⟩
  · unfold checkConsensus
    rw [hkp]
    rw [if_neg (by decide), if_neg (by decide)]
    have hdict : dictAvg (scoreDict
        [("x", [acC1]), ("y_z", [acC1]), ("x_y", [bcC1]), ("z", [ccC1])]) = 7/9 := by
      unfold scoreDict
      rw [hpairs]
      simp +decide [upsert, List.foldl, dictAvg, sAB, sAC, sBC]
      norm_num
    rw [hdict]
    simp only [decide_eq_false_iff_not]
    norm_num
  · unfold allPairMean
    rw [hkp, hpairs]
    simp only [List.map_cons, List.map_nil, sAA, sAB, sAC, sBC]
    rw [if_neg (by decide)]
    simp only [List.sum_cons, List.sum_nil, List.length_cons, List.length_nil]
    norm_num
  · unfold contributorCount
    rw [hkp]
    decide

/-! ## Deliberation round loop (DeliberationManager.run_deliberation) -/

/-- Observable outcome of `run_deliberation`: the `results["rounds"]` list,
the final `consensus_reached` flag, and the number of executed rounds. -/
structure DelibResult where
  rounds : List (List (String × String))
  consensus : Bool
  executed : ℕ
deriving DecidableEq, Repr

/-- Translates the loop of `run_deliberation`: round `r` appends the round's
responses (abstracted as `outputs r`) to the conversation history; if
consensus is then detected the loop breaks — before
`results["rounds"].append(round_results)` — otherwise the round is appended
and the loop continues.  On fuel exhaustion `consensus_reached` is false,
since the final round's check did not break. -/
def delibGo (numAgents : ℕ) (outputs : ℕ → List (String × String)) :
    ℕ → ℕ → List (String × String) → List (List (String × String)) → DelibResult
  | roundNum, 0, _hist, rounds => ⟨rounds, false, roundNum⟩
  | roundNum, fuel + 1, hist, rounds =>
    if checkConsensus numAgents (hist ++ outputs roundNum) then
      ⟨rounds, true, roundNum + 1⟩
    else
      delibGo numAgents outputs (roundNum + 1) fuel (hist ++ outputs roundNum)
        (rounds ++ [outputs roundNum])

/-- Translates `run_deliberation(max_rounds)` starting from an empty
transcript and empty rounds list. -/
def runDeliberation (numAgents maxRounds : ℕ)
    (outputs : ℕ → List (String × String)) : DelibResult :=
  delibGo numAgents outputs 0 maxRounds [] []

theorem delibGo_spec (n : ℕ) (outputs : ℕ → List (String × String)) :
    ∀ (fuel roundNum : ℕ) (hist : List (String × String)),
      (delibGo n outputs roundNum fuel hist ((List.range roundNum).map outputs)).rounds
        = (List.range
            ((delibGo n outputs roundNum fuel hist ((List.range roundNum).map outputs)).executed
              - (if (delibGo n outputs roundNum fuel hist
                    ((List.range roundNum).map outputs)).consensus then 1 else 0))).map outputs
      ∧ roundNum ≤ (delibGo n outputs roundNum fuel hist
          ((List.range roundNum).map outputs)).executed
      ∧ (delibGo n outputs roundNum fuel hist
          ((List.range roundNum).map outputs)).executed ≤ roundNum + fuel
      ∧ ((delibGo n outputs roundNum fuel hist
            ((List.range roundNum).map outputs)).consensus = false →
          (delibGo n outputs roundNum fuel hist
            ((List.range roundNum).map outputs)).executed = roundNum + fuel) := by
  intro fuel
  induction fuel with
  | zero =>
    intro roundNum hist
    simp [delibGo]
  | succ f ih =>
    intro roundNum hist
    simp only [delibGo]
    by_cases hc : checkConsensus n (hist ++ outputs roundNum) = true
    · simp only [hc, if_true]
      refine ⟨by simp, by omega, by omega, by simp⟩
    · have hc' : checkConsensus n (hist ++ outputs roundNum) = false := by
        cases h : checkConsensus n (hist ++ outputs roundNum) with
        | false => rfl
        | true => exact absurd h hc
      simp only [hc', Bool.false_eq_true, if_false]
      have harg : (List.range roundNum).map outputs ++ [outputs roundNum]
          = (List.range (roundNum + 1)).map outputs := by
        rw [List.range_succ, List.map_append, List.map_cons, List.map_nil]
      rw [harg]
      obtain ⟨ha, hb, hcc2, hd⟩ := ih (roundNum + 1) (hist ++ outputs roundNum)
      exact ⟨ha, by omega, by omega, fun hf => by have := hd hf; omega⟩

/-- C9 (amended): the rounds list contains, in order, every executed round
except the final one when consensus was reached in it: with `k` executed
rounds the list has `k` entries when the run exhausted `max_rounds` without
consensus, and `k - 1` entries when consensus was reached in round `k`. -/
theorem C9_rounds_amended :
    ∀ (numAgents maxRounds : ℕ) (outputs : ℕ → List (String × String)),
      (runDeliberation numAgents maxRounds outputs).rounds
        = (List.range ((runDeliberation numAgents maxRounds outputs).executed
            - (if (runDeliberation numAgents maxRounds outputs).consensus
               then 1 else 0))).map outputs
      ∧ (runDeliberation numAgents maxRounds outputs).rounds.length
        = (runDeliberation numAgents maxRounds outputs).executed
            - (if (runDeliberation numAgents maxRounds outputs).consensus then 1 else 0)
      ∧ (runDeliberation numAgents maxRounds outputs).executed ≤ maxRounds
      ∧ ((runDeliberation numAgents maxRounds outputs).consensus = false →
          (runDeliberation numAgents maxRounds outputs).executed = maxRounds) := by
  intro n maxR outputs
  have h := delibGo_spec n outputs maxR 0 []
  simp only [List.range_zero, List.map_nil, Nat.zero_add] at h
  unfold runDeliberation
  obtain ⟨ha, _, hcc, hd⟩ := h
  refine ⟨ha, ?_, hcc, hd⟩
  rw [ha, List.length_map, List.length_range]

/-- C9 witness: one round of empty outputs reaches no consensus, so the
executed count equals `max_rounds`. -/
theorem C9_witness :
    (runDeliberation 2 1 (fun _ => [])).executed = 1 :=
  (C9_rounds_amended 2 1 (fun _ => [])).2.2.2 (by decide)

/-- The counterexample round output: two distinct agents answering with the
same action sentence, which yields consensus in the very first round. -/
def outC9 : ℕ → List (String × String) :=
  fun _ => [("facilitator", "We should proceed"), ("ethicist", "We should proceed")]

/-- C9 counterexample: consensus is reached in the first (and only executed)
round, and the rounds list is empty — the claim demands one entry per
executed round, including the final consensus round. -/
theorem C9_counterexample :
    (runDeliberation 2 3 outC9).executed = 1
    ∧ (runDeliberation 2 3 outC9).consensus = true
    ∧ (runDeliberation 2 3 outC9).rounds.length = 0 := by
  have hkp : keyPtsOf 2 [("facilitator", "We should proceed"),
      ("ethicist", "We should proceed")] =
      [("ethicist", ["We should proceed"]), ("facilitator", ["We should proceed"])] := by
    decide
  have hpair : pairsOf [("ethicist", ["We should proceed"]),
      ("facilitator", ["We should proceed"])] =
      [(("ethicist", ["We should proceed"]), ("facilitator", ["We should proceed"]))] := by
    decide
  have hs : agreementScore ["We should proceed"] ["We should proceed"] = 1 := by
    rw [agreementScore_single _ _ (by decide) (by decide) (by decide)]
    have h1 : interCount (wordSet "We should proceed") (wordSet "We should proceed") = 3 := by
      decide
    have h2 : unionCount (wordSet "We should proceed") (wordSet "We should proceed") = 3 := by
      decide
    rw [h1, h2]
    norm_num
  have hcc : checkConsensus 2 [("facilitator", "We should proceed"),
      ("ethicist", "We should proceed")] = true := by
    unfold checkConsensus
    rw [hkp]
    rw [if_neg (by decide), if_neg (by decide)]
    have hdict : dictAvg (scoreDict [("ethicist", ["We should proceed"]),
        ("facilitator", ["We should proceed"])]) = 1 := by
      unfold scoreDict
      rw [hpair]
      simp +decide [upsert, List.foldl, dictAvg, hs]
    rw [hdict]
    simp only [decide_eq_true_eq]
    norm_num
  have hrun : runDeliberation 2 3 outC9 = ⟨[], true, 1⟩ := by
    unfold runDeliberation
    simp only [delibGo, outC9, List.nil_append, hcc, if_true]
  rw [hrun]
  exact ⟨rfl, rfl, rfl⟩
